import Mathlib

set_option maxHeartbeats 4000000
set_option maxRecDepth 4000

/-!
Shallow embedding of `check-external-links.js`, the external-link security
scanner and in-place fixer shipped with the logo-website repository.

Strings are modelled as `List Char`.  Each JavaScript regular expression used
by the script is embedded as an executable character-level matcher with the
exact semantics the concrete pattern has (the patterns contain no constructs
whose backtracking can produce anything but the greedy, leftmost match, which
the embeddings reproduce and which is argued case by case in the comments).
All recursion is structural or fuel-based so every definition reduces inside
the kernel.

Caveats of the embedding, none of which the claims exercise:
`String.prototype.toLowerCase` is modelled by the ASCII `Char.toLower` and
the JavaScript whitespace class `\s` by its ASCII part.  The
`$`-substitution escapes of `String.prototype.replace` are modelled by
`jsSubstitute`, specialised to the script's replacement pattern, which has
no capture groups.
-/

abbrev Str := List Char

/-- Character lookup `s[i]`; out-of-range positions read as the NUL character,
which satisfies none of the character classes used below, so a pattern can
never match past the end of the text. -/
def chAt (s : Str) (i : Nat) : Char := s.getD i (Char.ofNat 0)

/-- The quote alternative `["']` appearing in every attribute pattern. -/
def isQuote (c : Char) : Bool := c == '"' || c == '\''

/-- ASCII part of the JavaScript whitespace class `\s`. -/
def jsWs (c : Char) : Bool :=
  c == ' ' || c == '\t' || c == '\n' || c == '\r' || c == '\x0B' || c == '\x0C'

/-- `Char` lower-casing, modelling `toLowerCase` / the `i` regex flag. -/
def lc (c : Char) : Char := c.toLower

/-- `String.prototype.toLowerCase`. -/
def lowerStr (s : Str) : Str := s.map lc

/-- One step of `split(/\s+/)`: accumulate the current piece until a
whitespace character is hit, then emit the piece, skip the whole whitespace
run (`dropWhile`), and continue.  Fuel-based so that it reduces in the
kernel; `jsSplitWs` supplies enough fuel for the whole input. -/
def jsSplitWsF : Nat → Str → Str → List Str
  | _, [], acc => [acc.reverse]
  | 0, _ :: _, acc => [acc.reverse]
  | fuel + 1, c :: rest, acc =>
    if jsWs c then acc.reverse :: jsSplitWsF fuel (rest.dropWhile jsWs) []
    else jsSplitWsF fuel rest (c :: acc)

/-- `str.split(/\s+/)`: pieces between maximal whitespace runs; a leading or
trailing whitespace run contributes an empty boundary piece, exactly as in
JavaScript (`" a ".split(/\s+/)` is `["", "a", ""]`). -/
def jsSplitWs (s : Str) : List Str := jsSplitWsF (s.length + 1) s []

/-- `hasSecureRel` of the source: a `rel` value is secure iff, lower-cased
and split on whitespace, it contains both `noopener` and `noreferrer`.
`none` models the JavaScript `null` (falsy) short-circuit. -/
def hasSecureRel (rel : Option Str) : Bool :=
  match rel with
  | none => false
  | some r =>
    let relValues := jsSplitWs (lowerStr r)
    relValues.contains "noopener".data && relValues.contains "noreferrer".data

/-- `generateSecureRel` of the source: keep the lower-cased, split tokens and
append `noopener` and then `noreferrer` when missing; join with single
spaces. -/
def joinSpace : List Str → Str
  | [] => []
  | [x] => x
  | x :: xs => x ++ ' ' :: joinSpace xs

def generateSecureRel (existingRel : Option Str) : Str :=
  match existingRel with
  | none => "noopener noreferrer".data
  | some r =>
    let relValues := jsSplitWs (lowerStr r)
    let nv1 :=
      if relValues.contains "noopener".data then relValues
      else relValues ++ ["noopener".data]
    let nv2 :=
      if nv1.contains "noreferrer".data then nv1
      else nv1 ++ ["noreferrer".data]
    joinSpace nv2

/-- `isExternalUrl` of the source. -/
def isExternalUrl (href : Str) : Bool :=
  "http://".data.isPrefixOf href || "https://".data.isPrefixOf href ||
    "//".data.isPrefixOf href

/-- Case-insensitive comparison of `pat` against the text at position `i`,
modelling a literal inside an `i`-flagged regex. -/
def ciAt (s : Str) (i : Nat) : Str → Bool
  | [] => true
  | c :: cs => lc (chAt s i) == lc c && ciAt s (i + 1) cs

/-- Maximal whitespace skip (`\s*`), fuel-based.  Backtracking to a shorter
run can never help the patterns below because the character required after
`\s*` (`=` or a quote) is itself not whitespace. -/
def skipWsF (s : Str) : Nat → Nat → Nat
  | 0, i => i
  | fuel + 1, i => if jsWs (chAt s i) then skipWsF s fuel (i + 1) else i

def skipWs (s : Str) (i : Nat) : Nat := skipWsF s (s.length + 1) i

/-- First `>` at or after position `p`, i.e. where the tag-local quantifier
`[^>]*` is forced to stop. -/
def findGt (s : Str) (p : Nat) : Option Nat :=
  (List.range s.length).find? (fun idx => decide (p ≤ idx) && (chAt s idx == '>'))

/-- The sub-pattern `target\s*=\s*["']_blank["']` (case-insensitive) starting
at exactly position `k`. -/
def targetPatAt (s : Str) (k : Nat) : Bool :=
  ciAt s k "target".data &&
    (let m1 := skipWs s (k + 6)
     chAt s m1 == '=' &&
       (let m2 := skipWs s (m1 + 1)
        isQuote (chAt s m2) && ciAt s (m2 + 1) "_blank".data &&
          isQuote (chAt s (m2 + 7))))

/-- One attempt of `/<a[^>]*target\s*=\s*["']_blank["'][^>]*>/i` at start
position `i`; returns the exclusive end of the match.  Since no character of
the pattern other than the final literal `>` can match `>`, a match starting
at `i` exists iff the text has `<a` (case-insensitive `a`) at `i`, a `>`
somewhere after, and the `target` sub-pattern somewhere strictly between
`i + 2` and that first `>`; the match then ends right after that `>`. -/
def matchAt (s : Str) (i : Nat) : Option Nat :=
  if chAt s i == '<' && lc (chAt s (i + 1)) == 'a' then
    match findGt s (i + 2) with
    | some g =>
      if (List.range' (i + 2) (g - (i + 2))).any (targetPatAt s) then some (g + 1)
      else none
    | none => none
  else none

/-- The global (`g`-flag) scan of `findTargetBlankLinks`: repeatedly take the
leftmost match starting at or after the current position and continue from
its end, exactly as `RegExp.exec` advances `lastIndex`. -/
def scanGo (s : Str) : Nat → Nat → List (Nat × Nat)
  | 0, _ => []
  | fuel + 1, p =>
    if p ≥ s.length then []
    else
      match matchAt s p with
      | some j => (p, j) :: scanGo s fuel j
      | none => scanGo s fuel (p + 1)

/-- One attempt of the attribute-extraction pattern
`/name\s*=\s*["']([^"']+)["']/i` at start position `k` of the tag: the
captured group is the maximal run of non-quote characters after the opening
quote, it must be non-empty, and the character after it must be a quote
(shorter, backtracked runs are always followed by a non-quote character, so
only the maximal run can match). -/
def attrAt (name tag : Str) (k : Nat) : Option Str :=
  if ciAt tag k name then
    let m1 := skipWs tag (k + name.length)
    if chAt tag m1 == '=' then
      let m2 := skipWs tag (m1 + 1)
      if isQuote (chAt tag m2) then
        let v := (tag.drop (m2 + 1)).takeWhile (fun c => !(isQuote c))
        if v.isEmpty then none
        else if isQuote (chAt tag (m2 + 1 + v.length)) then some v else none
      else none
    else none
  else none

/-- Leftmost-match search for `attrAt` (the `String.prototype.match`
semantics without the `g` flag). -/
def extractAttrGo (name tag : Str) : Nat → Nat → Option Str
  | 0, _ => none
  | fuel + 1, k =>
    if k ≥ tag.length then none
    else
      match attrAt name tag k with
      | some v => some v
      | none => extractAttrGo name tag fuel (k + 1)

/-- `linkTag.match(/name\s*=\s*["']([^"']+)["']/i)`, returning the captured
group of the leftmost match, `none` when the pattern does not match. -/
def extractAttr (name tag : Str) : Option Str :=
  extractAttrGo name tag (tag.length + 1) 0

/-- One `LinkMatch` record of `findTargetBlankLinks`. -/
structure LinkMatch where
  tag : Str
  href : Option Str
  rel : Option Str
  lineNumber : Nat
  startIndex : Nat
  endIndex : Nat
deriving DecidableEq, Repr

/-- The `LinkMatch` built for one regex match `[pr.1, pr.2)`: the matched tag
text, the extracted `href` and `rel` attributes, the 1-based line number
(newlines before the match start, plus one) and the offset range. -/
def mkMatch (s : Str) (pr : Nat × Nat) : LinkMatch :=
  let tag := (s.drop pr.1).take (pr.2 - pr.1)
  { tag := tag
    href := extractAttr "href".data tag
    rel := extractAttr "rel".data tag
    lineNumber := (s.take pr.1).count '\n' + 1
    startIndex := pr.1
    endIndex := pr.2 }

/-- `findTargetBlankLinks` of the source: all matches of the tag regex in
document order. -/
def findTargetBlankLinks (s : Str) : List LinkMatch :=
  (scanGo s (s.length + 1) 0).map (mkMatch s)

/-- One attempt of the replacement pattern `/rel\s*=\s*["'][^"']*["']/i` at
start position `k` of the tag; returns the exclusive end of the matched span.
Unlike `attrAt`, the value run may be empty. -/
def relSpanAt (tag : Str) (k : Nat) : Option Nat :=
  if ciAt tag k "rel".data then
    let m1 := skipWs tag (k + 3)
    if chAt tag m1 == '=' then
      let m2 := skipWs tag (m1 + 1)
      if isQuote (chAt tag m2) then
        let v := (tag.drop (m2 + 1)).takeWhile (fun c => !(isQuote c))
        if isQuote (chAt tag (m2 + 1 + v.length)) then some (m2 + 1 + v.length + 1)
        else none
      else none
    else none
  else none

def findRelSpanGo (tag : Str) : Nat → Nat → Option (Nat × Nat)
  | 0, _ => none
  | fuel + 1, k =>
    if k ≥ tag.length then none
    else
      match relSpanAt tag k with
      | some e => some (k, e)
      | none => findRelSpanGo tag fuel (k + 1)

/-- Leftmost span matched by `/rel\s*=\s*["'][^"']*["']/i` inside the tag. -/
def findRelSpan (tag : Str) : Option (Nat × Nat) :=
  findRelSpanGo tag (tag.length + 1) 0

/-- `GetSubstitution` of `String.prototype.replace` for a string replacement
and a pattern with no capture groups: `$$` yields `$`, `$&` the matched
substring, `` $` `` the text preceding the match, `$'` the text following
it; any other `$` stands for itself (with zero capture groups every digit
reference `$n` is literal, and `$<` is literal without named groups).
`matched`, `before` and `after` are the matched span and the surrounding
text of the subject string; the last argument is the replacement template. -/
def jsSubstitute (matched before after : Str) : Str → Str
  | [] => []
  | c :: rest =>
    if c == '$' then
      match rest with
      | [] => ['$']
      | d :: rest2 =>
        if d == '$' then '$' :: jsSubstitute matched before after rest2
        else if d == '&' then matched ++ jsSubstitute matched before after rest2
        else if d == '\x60' then before ++ jsSubstitute matched before after rest2
        else if d == '\'' then after ++ jsSubstitute matched before after rest2
        else '$' :: d :: jsSubstitute matched before after rest2
    else c :: jsSubstitute matched before after rest

/-- A replacement template is substitution-free when it contains no `$`
escape that `jsSubstitute` would expand, walking the template exactly as
`jsSubstitute` does. -/
def substEscapeFree : Str → Bool
  | [] => true
  | c :: rest =>
    if c == '$' then
      match rest with
      | [] => true
      | d :: rest2 =>
        if d == '$' || d == '&' || d == '\x60' || d == '\'' then false
        else substEscapeFree rest2
    else substEscapeFree rest

/-- `tag.replace(/rel\s*=\s*["'][^"']*["']/i, 'rel="' + v + '"')`: the first
matched span is replaced by the template `rel="v"` (double quotes, whatever
the original quote style) after `$`-substitution against the matched span
and its surrounding text; with no match the tag is returned unchanged. -/
def jsReplaceFirstRel (tag v : Str) : Str :=
  match findRelSpan tag with
  | some (p, q) =>
    tag.take p ++
      jsSubstitute ((tag.drop p).take (q - p)) (tag.take p) (tag.drop q)
        ("rel=\"".data ++ v ++ ['"']) ++
      tag.drop q
  | none => tag

/-- `String.prototype.indexOf` as an `Option`. -/
def jsIndexOf (s pat : Str) : Option Nat :=
  (List.range (s.length + 1)).find? (fun k => pat.isPrefixOf (s.drop k))

def tbLit : Str := "target=\"_blank\"".data

/-- The rewritten tag computed inside `fixLink`.  With a `rel` attribute the
first `rel=...` span is replaced; without one, ` rel="noopener noreferrer"`
is inserted right after the literal `target="_blank"`.  When that literal is
absent (e.g. a single-quoted `target='_blank'`), JavaScript's
`indexOf` returns `-1` and the insertion lands at `-1 + 15 = 14`. -/
def newTagFor (l : LinkMatch) : Str :=
  match l.rel with
  | some _ => jsReplaceFirstRel l.tag (generateSecureRel l.rel)
  | none =>
    let insertPosition :=
      match jsIndexOf l.tag tbLit with
      | some n => n + tbLit.length
      | none => tbLit.length - 1
    l.tag.take insertPosition ++ " rel=\"noopener noreferrer\"".data ++
      l.tag.drop insertPosition

/-- `fixLink` of the source: already-secure links leave the document
untouched; otherwise the rewritten tag is spliced over the match's original
`[startIndex, endIndex)` range. -/
def fixLink (l : LinkMatch) (content : Str) : Str :=
  if hasSecureRel l.rel then content
  else content.take l.startIndex ++ newTagFor l ++ content.drop l.endIndex

/-- An `Issue` record (the constant `file` field is omitted). -/
structure Issue where
  line : Nat
  href : Str
  currentRel : Str
  severity : Str
  status : Option Str
deriving DecidableEq, Repr

/-- The issue object built in `checkFile`'s loop; `status` is set to `FIXED`
exactly in fix mode, and an absent `rel` is reported as `(none)`. -/
def mkIssue (fixMode : Bool) (l : LinkMatch) : Issue :=
  { line := l.lineNumber
    href := l.href.getD []
    currentRel := l.rel.getD "(none)".data
    severity := "HIGH".data
    status := if fixMode then some "FIXED".data else none }

/-- The guard of `checkFile`'s loop: `link.href && isExternalUrl(link.href)
&& !hasSecureRel(link.rel)`. -/
def violating (l : LinkMatch) : Bool :=
  match l.href with
  | some h => isExternalUrl h && !hasSecureRel l.rel
  | none => false

structure CheckResult where
  updatedContent : Str
  fileIssues : List Issue
  hasChanges : Bool
deriving DecidableEq, Repr

/-- One iteration of `checkFile`'s reverse loop over the matches. -/
def processLink (fixMode : Bool) (st : CheckResult) (l : LinkMatch) : CheckResult :=
  match l.href with
  | none => st
  | some h =>
    if isExternalUrl h then
      if hasSecureRel l.rel then st
      else
        { updatedContent := if fixMode then fixLink l st.updatedContent else st.updatedContent
          fileIssues := st.fileIssues ++ [mkIssue fixMode l]
          hasChanges := st.hasChanges || fixMode }
    else st

/-- The pure core of `checkFile`: scan the content, then walk the matches in
reverse index order, collecting issues and (in fix mode) rewriting the
working copy of the text. -/
def checkFile (fixMode : Bool) (content : Str) : CheckResult :=
  ((findTargetBlankLinks content).reverse).foldl (processLink fixMode)
    ⟨content, [], false⟩

/-- `fs.writeFileSync` is reached exactly when `this.fixMode && hasChanges`. -/
def writeOccurs (fixMode : Bool) (r : CheckResult) : Bool := fixMode && r.hasChanges

/-- A document handed to `checkFile` together with its I/O fate: `read =
none` models `readFileSync` throwing, `writeFails` models `writeFileSync`
throwing. -/
structure DocInput where
  read : Option Str
  writeFails : Bool
deriving DecidableEq, Repr

/-- The per-file result of `checkFile` including its `try/catch`: on any
exception the catch block returns an error result with an empty issue list
and `this.issues.push(...fileIssues)` (which sits after the write) is never
executed. -/
structure FileResult where
  issues : List Issue
  err : Bool
  written : Option Str
  fixed : Bool
deriving DecidableEq, Repr

def checkFileRun (fixMode : Bool) (d : DocInput) : FileResult :=
  match d.read with
  | none => { issues := [], err := true, written := none, fixed := false }
  | some content =>
    let r := checkFile fixMode content
    if fixMode && r.hasChanges && d.writeFails then
      { issues := [], err := true, written := none, fixed := false }
    else
      { issues := r.fileIssues
        err := false
        written := if fixMode && r.hasChanges then some r.updatedContent else none
        fixed := fixMode && r.hasChanges }

/-- `run`: every document is processed; no exception crosses a document
boundary (`checkFile` catches everything), so this is a total `map`. -/
def runResults (fixMode : Bool) (ds : List DocInput) : List FileResult :=
  ds.map (checkFileRun fixMode)

/-- The aggregate `this.issues` after the run (only successfully processed
documents push their issues). -/
def runIssuesAll (fixMode : Bool) (ds : List DocInput) : List Issue :=
  ((runResults fixMode ds).map FileResult.issues).flatten

/-- `generateReport`'s return value: no HIGH-severity issues collected. -/
def runAllClear (fixMode : Bool) (ds : List DocInput) : Bool :=
  ((runIssuesAll fixMode ds).filter (fun i => i.severity == "HIGH".data)).length == 0

/-- The process exit status of `run`: `process.exit(1)` fires iff the report
is not clear and fix mode is off; otherwise the process ends with 0. -/
def runExitCode (fixMode : Bool) (ds : List DocInput) : Nat :=
  if !(runAllClear fixMode ds) && !fixMode then 1 else 0

/-! ### Further definitions used by the statements -/

/-- The compliance predicate in the spec's words: the rel attribute is
present and its value, lower-cased and split on whitespace, contains both
the token `noopener` and the token `noreferrer`. -/
def specCompliantRel (rel : Option Str) : Prop :=
  ∃ r, rel = some r ∧ "noopener".data ∈ jsSplitWs (lowerStr r) ∧
    "noreferrer".data ∈ jsSplitWs (lowerStr r)

/-- Well-formedness of a match list relative to a scan position `p`: spans
are in order, disjoint, inside the text, and each record's `tag` is the text
of its span. -/
def LinksOK (s : Str) : Nat → List LinkMatch → Prop
  | _, [] => True
  | p, l :: rest =>
    p ≤ l.startIndex ∧ l.startIndex < l.endIndex ∧ l.endIndex ≤ s.length ∧
      l.tag = (s.drop l.startIndex).take (l.endIndex - l.startIndex) ∧
      LinksOK s l.endIndex rest

/-- Simultaneous-splice reconstruction of a document from its matches: the
gap before each match is copied from the original text, a violating match's
span is replaced by its rewritten tag, any other span keeps its tag, and the
tail after the last match is copied unchanged. -/
def rebuild (s : Str) : Nat → List LinkMatch → Str
  | pos, [] => s.drop pos
  | pos, l :: rest =>
    (s.drop pos).take (l.startIndex - pos) ++
      (if violating l then newTagFor l else l.tag) ++ rebuild s l.endIndex rest

/-- The end-to-end example document of the spec. -/
def docC4 : Str := "<a href=\"https://example.com\" target=\"_blank\">Link</a>".data

def docC4Fixed : Str :=
  "<a href=\"https://example.com\" target=\"_blank\" rel=\"noopener noreferrer\">Link</a>".data

/-- A document whose only tag has no extractable `rel`, a single-quoted
`target='_blank'` and a stray quote at offset 13, so the rel-absent fix
inserts at the fallback position 14 (JavaScript's `-1 + 15`). -/
def d0C2 : Str := "<a abcd rel =\"' target='_blank' href='https://e.com'>".data

/-- The bytes produced by one fix pass over `d0C2`. -/
def d1C2 : Str :=
  "<a abcd rel =\" rel=\"noopener noreferrer\"' target='_blank' href='https://e.com'>".data

def tagC5 : Str := "<a href=\"https://e.com\" target=\"_blank\" rel=\"nofollow\">".data

def lC5 : LinkMatch :=
  { tag := tagC5, href := some "https://e.com".data, rel := some "nofollow".data,
    lineNumber := 1, startIndex := 0, endIndex := 55 }

def contentC5 : Str := tagC5 ++ "x</a>".data

/-- A violating tag whose rel value `a$&b` contains the replacement escape
`$&`, which `String.prototype.replace` expands to the matched span. -/
def tagCE : Str := "<a href=\"https://e.com\" target=\"_blank\" rel=\"a$&b\">".data

def lCE : LinkMatch :=
  { tag := tagCE, href := some "https://e.com".data, rel := some "a$&b".data,
    lineNumber := 1, startIndex := 0, endIndex := 51 }

def docC6 : Str := "<a href=\"#section\" target=\"_blank\">x</a>".data

def docC8 : Str := "<a href=\"https://e.com\" target=\"_blank\">x</a>".data

/-- `docC8` handed to `checkFile` with a failing `writeFileSync`. -/
def dC8 : DocInput := { read := some docC8, writeFails := true }

def tagC9 : Str :=
  "<a href=\"https://e.com\" target=\"_blank\" rel=\"noopener noreferrer\">".data

def lC9 : LinkMatch :=
  { tag := tagC9, href := some "https://e.com".data,
    rel := some "noopener noreferrer".data, lineNumber := 1, startIndex := 0,
    endIndex := 67 }

def docC10a : Str := "<a href=\"\" target=\"_blank\" rel=\"\">x</a>".data

def docC10b : Str := "<a href=\"https://e.com\" target=\"_blank\" rel=\"\">x</a>".data

def docC10bFixed : Str :=
  "<a href=\"https://e.com\" target=\"_blank\" rel=\"noopener noreferrer\" rel=\"\">x</a>".data

/-! ### Shared facts about the embedding -/

theorem contains_iff_mem {l : List Str} {a : Str} : l.contains a = true ↔ a ∈ l := by
  simp only [List.contains, List.elem_iff]

theorem violating_not_secure {l : LinkMatch} (h : violating l = true) :
    hasSecureRel l.rel = false := by
  unfold violating at h
  cases hh : l.href with
  | none => rw [hh] at h; cases h
  | some hr =>
    rw [hh] at h
    simp only [Bool.and_eq_true, Bool.not_eq_true'] at h
    exact h.2

theorem processLink_fileIssues (fm : Bool) (st : CheckResult) (l : LinkMatch) :
    (processLink fm st l).fileIssues =
      st.fileIssues ++ (if violating l = true then [mkIssue fm l] else []) := by
  unfold processLink violating
  cases l.href with
  | none => simp
  | some h =>
    cases he : isExternalUrl h <;> cases hs : hasSecureRel l.rel <;> simp [he, hs]

theorem processLink_updated (fm : Bool) (st : CheckResult) (l : LinkMatch) :
    (processLink fm st l).updatedContent =
      if violating l && fm then fixLink l st.updatedContent else st.updatedContent := by
  unfold processLink violating
  cases l.href with
  | none => simp
  | some h =>
    cases he : isExternalUrl h <;> cases hs : hasSecureRel l.rel <;> cases fm <;>
      simp [he, hs]

theorem foldl_issues (fm : Bool) (links : List LinkMatch) :
    ∀ st : CheckResult,
      (links.foldl (processLink fm) st).fileIssues =
        st.fileIssues ++ (links.filter violating).map (mkIssue fm) := by
  induction links with
  | nil => intro st; simp
  | cons l rest ih =>
    intro st
    rw [List.foldl_cons, ih, processLink_fileIssues]
    cases hv : violating l <;> simp [hv, List.filter_cons]

theorem foldl_updated (fm : Bool) (links : List LinkMatch) :
    ∀ st : CheckResult,
      (links.foldl (processLink fm) st).updatedContent =
        links.foldl (fun c l => if violating l && fm then fixLink l c else c)
          st.updatedContent := by
  induction links with
  | nil => intro st; rfl
  | cons l rest ih =>
    intro st
    rw [List.foldl_cons, List.foldl_cons, ih, processLink_updated]

/-- The issues reported by `checkFile` are exactly one per violating match,
in reverse scan order. -/
theorem checkFile_issues (fm : Bool) (content : Str) :
    (checkFile fm content).fileIssues =
      ((findTargetBlankLinks content).reverse.filter violating).map (mkIssue fm) := by
  unfold checkFile
  rw [foldl_issues]
  simp

/-- In fix mode, the updated content is the right-to-left fold of `fixLink`
over the violating matches (the source's reverse loop). -/
theorem checkFile_fix_updated (content : Str) :
    (checkFile true content).updatedContent =
      (findTargetBlankLinks content).foldr
        (fun l c => if violating l then fixLink l c else c) content := by
  unfold checkFile
  rw [foldl_updated, List.foldl_reverse]
  simp only [Bool.and_true]

theorem findGt_spec {s : Str} {p g : Nat} (h : findGt s p = some g) :
    p ≤ g ∧ g < s.length := by
  unfold findGt at h
  have h1 := List.find?_some h
  have h2 := List.mem_of_find?_eq_some h
  simp only [Bool.and_eq_true, decide_eq_true_eq] at h1
  exact ⟨h1.1, List.mem_range.mp h2⟩

theorem matchAt_bounds {s : Str} {i j : Nat} (h : matchAt s i = some j) :
    i < j ∧ j ≤ s.length := by
  unfold matchAt at h
  split at h
  · split at h
    next g hg =>
      split at h
      · injection h with h'
        obtain ⟨ha, hb⟩ := findGt_spec hg
        omega
      · exact Option.noConfusion h
    next hg => exact Option.noConfusion h
  · exact Option.noConfusion h

theorem LinksOK_mono {s : Str} {links : List LinkMatch} {p q : Nat}
    (hpq : p ≤ q) (h : LinksOK s q links) : LinksOK s p links := by
  cases links with
  | nil => trivial
  | cons l rest =>
    simp only [LinksOK] at h ⊢
    exact ⟨le_trans hpq h.1, h.2⟩

theorem scanGo_ok (s : Str) (fuel : Nat) :
    ∀ p : Nat, LinksOK s p ((scanGo s fuel p).map (mkMatch s)) := by
  induction fuel with
  | zero => intro p; simp [scanGo, LinksOK]
  | succ n ih =>
    intro p
    unfold scanGo
    by_cases hp : p ≥ s.length
    · simp [hp, LinksOK]
    · simp only [hp, if_false]
      cases hm : matchAt s p with
      | none => exact LinksOK_mono (Nat.le_succ p) (ih (p + 1))
      | some j =>
        simp only [List.map_cons, LinksOK, mkMatch]
        obtain ⟨ha, hb⟩ := matchAt_bounds hm
        exact ⟨le_refl p, ha, hb, trivial, ih j⟩

theorem links_ok (s : Str) : LinksOK s 0 (findTargetBlankLinks s) :=
  scanGo_ok s (s.length + 1) 0

theorem take_helper (s : Str) {p n : Nat} (hpn : p ≤ n) :
    s.take p ++ (s.drop p).take (n - p) = s.take n := by
  conv_rhs => rw [show n = p + (n - p) by omega]
  rw [List.take_add]

theorem length_take_eq {s : Str} {e : Nat} (hes : e ≤ s.length) :
    (s.take e).length = e := by
  rw [List.length_take]
  omega

theorem splice_take {s R : Str} {start e : Nat} (hse : start ≤ e) (hes : e ≤ s.length) :
    (s.take e ++ R).take start = s.take start := by
  rw [List.take_append_eq_append_take, length_take_eq hes, List.take_take]
  have h0 : start - e = 0 := by omega
  have h1 : start ⊓ e = start := by omega
  rw [h0, h1]
  simp

theorem splice_drop {s R : Str} {e : Nat} (hes : e ≤ s.length) :
    (s.take e ++ R).drop e = R := by
  rw [List.drop_append_eq_append_drop, length_take_eq hes]
  rw [List.drop_eq_nil_of_le (le_of_eq (length_take_eq hes))]
  simp

/-- Right-to-left remediation equals simultaneous splicing: processing the
matches from the highest offset down leaves every earlier match's offsets
valid, so the fold computes exactly the `rebuild` reconstruction. -/
theorem foldr_fix_rebuild (s : Str) (links : List LinkMatch) :
    ∀ p : Nat, LinksOK s p links →
      links.foldr (fun l c => if violating l then fixLink l c else c) s =
        s.take p ++ rebuild s p links := by
  induction links with
  | nil => intro p _; simp [rebuild]
  | cons l rest ih =>
    intro p hok
    simp only [LinksOK] at hok
    obtain ⟨h1, h2, h3, h4, h5⟩ := hok
    rw [List.foldr_cons, ih l.endIndex h5]
    simp only [rebuild]
    cases hv : violating l
    · simp only [if_false, Bool.false_eq_true]
      rw [h4]
      have e1 : s.take p ++ (s.drop p).take (l.startIndex - p) = s.take l.startIndex :=
        take_helper s h1
      have e2 : s.take l.startIndex ++ (s.drop l.startIndex).take (l.endIndex - l.startIndex) =
          s.take l.endIndex := take_helper s (le_of_lt h2)
      rw [← e2, ← e1]
      simp [List.append_assoc]
    · simp only [if_true]
      have hsec : hasSecureRel l.rel = false := violating_not_secure hv
      unfold fixLink
      rw [hsec]
      simp only [Bool.false_eq_true, if_false]
      rw [splice_take (le_of_lt h2) h3, splice_drop h3]
      have e1 : s.take p ++ (s.drop p).take (l.startIndex - p) = s.take l.startIndex :=
        take_helper s h1
      rw [← e1]
      simp [List.append_assoc]

theorem hasSecureRel_iff (rel : Option Str) :
    hasSecureRel rel = true ↔ specCompliantRel rel := by
  cases rel with
  | none => simp [hasSecureRel, specCompliantRel]
  | some r =>
    simp only [hasSecureRel, specCompliantRel, Bool.and_eq_true, contains_iff_mem]
    constructor
    · rintro ⟨h1, h2⟩
      exact ⟨r, rfl, h1, h2⟩
    · rintro ⟨r', hr', h1, h2⟩
      injection hr' with h
      subst h
      exact ⟨h1, h2⟩

theorem attrAt_ne_nil {name tag : Str} {k : Nat} {v : Str}
    (h : attrAt name tag k = some v) : v ≠ [] := by
  simp only [attrAt] at h
  split at h
  · split at h
    · split at h
      · split at h
        · exact Option.noConfusion h
        next hne =>
          split at h
          · injection h with h'
            subst h'
            simpa [List.isEmpty_iff] using hne
          · exact Option.noConfusion h
      · exact Option.noConfusion h
    · exact Option.noConfusion h
  · exact Option.noConfusion h

theorem extractAttrGo_ne_nil (name tag : Str) :
    ∀ (fuel k : Nat) (v : Str), extractAttrGo name tag fuel k = some v → v ≠ [] := by
  intro fuel
  induction fuel with
  | zero => intro k v h; exact Option.noConfusion h
  | succ n ih =>
    intro k v h
    unfold extractAttrGo at h
    split at h
    · exact Option.noConfusion h
    · split at h
      next v' hv' =>
        injection h with h'
        subst h'
        exact attrAt_ne_nil hv'
      next => exact ih (k + 1) v h

/-! ### Claim theorems -/

/-- Claim C3: one fix pass remediates every violating match in a single
document.  Because the matches are processed in descending start-offset
order, each rewrite leaves the offsets of every not-yet-processed,
earlier-positioned match valid, so the pass computes exactly the
simultaneous reconstruction `rebuild`: every violating match's
`[startIndex, endIndex)` range is replaced by its own rewritten tag, every
other match keeps its tag, and all bytes outside the matched ranges are
copied from the original document unchanged. -/
theorem c3_offset_safe_fix_pass (content : Str) :
    (checkFile true content).updatedContent =
      rebuild content 0 (findTargetBlankLinks content) := by
  rw [checkFile_fix_updated,
    foldr_fix_rebuild content (findTargetBlankLinks content) 0 (links_ok content)]
  simp

/-- Claim C1: for every scanner match whose `href` is present and external,
the loop of `checkFile` classifies the tag compliant (produces no issue for
it) iff its rel value, lower-cased and split on whitespace, contains both
the token `noopener` and the token `noreferrer`; an absent, partial or
otherwise insufficient rel makes the match violating.  Moreover the issues
reported by `checkFile` are exactly one per violating match. -/
theorem c1_classification (content : Str) (fm : Bool) (m : LinkMatch) (h : Str)
    (hm : m ∈ findTargetBlankLinks content) (hh : m.href = some h)
    (hext : isExternalUrl h = true) :
    (violating m = false ↔ specCompliantRel m.rel) ∧
    (checkFile fm content).fileIssues =
      ((findTargetBlankLinks content).reverse.filter violating).map (mkIssue fm) := by
  refine ⟨?_, checkFile_issues fm content⟩
  unfold violating
  rw [hh]
  simp only [hext, Bool.true_and, Bool.not_eq_false']
  exact hasSecureRel_iff m.rel

/-- Witness for C1 at the spec's example document: its single match has the
external href `https://example.com` and no rel, so it is violating. -/
theorem c1_classification_witness :
    mkMatch docC4 (0, 46) ∈ findTargetBlankLinks docC4 ∧
    (mkMatch docC4 (0, 46)).href = some "https://example.com".data ∧
    isExternalUrl "https://example.com".data = true ∧
    ((violating (mkMatch docC4 (0, 46)) = false ↔
        specCompliantRel (mkMatch docC4 (0, 46)).rel) ∧
      (checkFile false docC4).fileIssues =
        ((findTargetBlankLinks docC4).reverse.filter violating).map (mkIssue false)) :=
  ⟨by decide, by decide, by decide,
    c1_classification docC4 false (mkMatch docC4 (0, 46)) "https://example.com".data
      (by decide) (by decide) (by decide)⟩

/-- Claim C6: a scanner match whose `href` is absent, or present but not
external (no `http://`, `https://` or `//` prefix), is never violating, so
the auditor produces no issue for it in either mode: the issue list consists
exactly of one issue per violating match. -/
theorem c6_scope_exclusion (content : Str) (fm : Bool) (m : LinkMatch)
    (hm : m ∈ findTargetBlankLinks content)
    (hskip : m.href = none ∨ ∃ h, m.href = some h ∧ isExternalUrl h = false) :
    violating m = false ∧
    (checkFile fm content).fileIssues =
      ((findTargetBlankLinks content).reverse.filter violating).map (mkIssue fm) := by
  refine ⟨?_, checkFile_issues fm content⟩
  unfold violating
  rcases hskip with hn | ⟨h, hh, hext⟩
  · rw [hn]
  · rw [hh]
    simp [hext]

/-- Witness for C6: a `target="_blank"` tag with the fragment href
`#section` is in the scan but never reported, whatever its rel. -/
theorem c6_scope_exclusion_witness :
    mkMatch docC6 (0, 35) ∈ findTargetBlankLinks docC6 ∧
    (mkMatch docC6 (0, 35)).href = some "#section".data ∧
    isExternalUrl "#section".data = false ∧
    (violating (mkMatch docC6 (0, 35)) = false ∧
      (checkFile true docC6).fileIssues =
        ((findTargetBlankLinks docC6).reverse.filter violating).map (mkIssue true)) :=
  ⟨by decide, by decide, by decide,
    c6_scope_exclusion docC6 true (mkMatch docC6 (0, 35)) (by decide)
      (Or.inr ⟨"#section".data, by decide, by decide⟩)⟩

/-- Claim C9: applying `fixLink` to a match whose rel already satisfies the
policy returns the document text completely unchanged. -/
theorem c9_fix_noop_on_secure (l : LinkMatch) (content : Str)
    (h : hasSecureRel l.rel = true) : fixLink l content = content := by
  unfold fixLink
  rw [h]
  simp

/-- Witness for C9 at a compliant link. -/
theorem c9_fix_noop_on_secure_witness :
    hasSecureRel lC9.rel = true ∧ fixLink lC9 docC4 = docC4 :=
  ⟨by decide, c9_fix_noop_on_secure lC9 docC4 (by decide)⟩

/-- Claim C7: the process exit status is 1 exactly when at least one
violation-severity (HIGH) issue was collected across all documents and fix
mode was off; it is 0 when no such issue exists or whenever fix mode was
supplied. -/
theorem c7_exit_code (fm : Bool) (ds : List DocInput) :
    (runExitCode fm ds = 1 ↔
      ((∃ i ∈ runIssuesAll fm ds, i.severity = "HIGH".data) ∧ fm = false)) ∧
    (runExitCode fm ds = 0 ↔
      ((¬ ∃ i ∈ runIssuesAll fm ds, i.severity = "HIGH".data) ∨ fm = true)) := by
  have hfe : runAllClear fm ds = true ↔
      ¬ ∃ i ∈ runIssuesAll fm ds, i.severity = "HIGH".data := by
    unfold runAllClear
    rw [beq_iff_eq, List.length_eq_zero, List.filter_eq_nil_iff]
    simp [beq_iff_eq]
  unfold runExitCode
  cases hb : runAllClear fm ds
  · have hEx : ∃ i ∈ runIssuesAll fm ds, i.severity = "HIGH".data := by
      by_contra hne
      have hc := hfe.mpr hne
      rw [hb] at hc
      exact Bool.noConfusion hc
    cases fm <;> simp [hEx]
  · have hnEx := hfe.mp hb
    cases fm <;> simp [hnEx]

theorem newTagFor_rel_present {l : LinkMatch} {r : Str} (hr : l.rel = some r) :
    newTagFor l = jsReplaceFirstRel l.tag (generateSecureRel l.rel) := by
  unfold newTagFor
  rw [hr]

theorem jsReplaceFirstRel_eq {tag v : Str} {p q : Nat}
    (h : findRelSpan tag = some (p, q)) :
    jsReplaceFirstRel tag v =
      tag.take p ++
        jsSubstitute ((tag.drop p).take (q - p)) (tag.take p) (tag.drop q)
          ("rel=\"".data ++ v ++ ['"']) ++
        tag.drop q := by
  unfold jsReplaceFirstRel
  rw [h]

theorem jsSubstitute_id_aux (m b a : Str) :
    ∀ (n : Nat) (t : Str), t.length ≤ n → substEscapeFree t = true →
      jsSubstitute m b a t = t := by
  intro n
  induction n with
  | zero =>
    intro t ht _
    have hnil : t = [] := List.eq_nil_of_length_eq_zero (Nat.le_zero.mp ht)
    subst hnil
    rfl
  | succ k ih =>
    intro t ht h
    cases t with
    | nil => rfl
    | cons c rest =>
      cases hc : c == '$'
      · have h' : substEscapeFree rest = true := by
          rw [substEscapeFree.eq_def] at h
          simpa [hc] using h
        have hlen : rest.length ≤ k := by
          simp only [List.length_cons] at ht
          omega
        rw [jsSubstitute.eq_def]
        simp [hc]
        exact ih rest hlen h'
      · have hc' : c = '$' := beq_iff_eq.mp hc
        subst hc'
        cases rest with
        | nil => rfl
        | cons d rest2 =>
          cases hd : (d == '$' || d == '&' || d == '\x60' || d == '\'')
          · have h' : substEscapeFree rest2 = true := by
              rw [substEscapeFree.eq_def] at h
              simpa [hd] using h
            have hlen : rest2.length ≤ k := by
              simp only [List.length_cons] at ht
              omega
            have hds := hd
            simp only [Bool.or_eq_false_iff] at hds
            obtain ⟨⟨⟨h1, h2⟩, h3⟩, h4⟩ := hds
            rw [jsSubstitute.eq_def]
            simp [h1, h2, h3, h4]
            exact ih rest2 hlen h'
          · exfalso
            rw [substEscapeFree.eq_def] at h
            simp [hd] at h

/-- A substitution-free replacement template passes through
`String.prototype.replace` unchanged. -/
theorem jsSubstitute_eq_self {m b a t : Str} (h : substEscapeFree t = true) :
    jsSubstitute m b a t = t :=
  jsSubstitute_id_aux m b a t.length t le_rfl h

/-- Claim C2 (code bug): fix mode is not idempotent.  On `d0C2` the first
fix pass produces `d1C2`; a second fix-mode run on `d1C2` again reports one
issue, rewrites the bytes and reaches the file write, instead of reporting
zero issues and leaving the bytes alone.  The cause is the fallback
insertion at offset 14 (JavaScript's `indexOf` returning `-1` for the
single-quoted `target='_blank'`, the defect the spec itself flags): the
inserted text lands inside the tag's stray quoted region and manufactures an
extractable but insecure rel value `" rel="` for the second scan. -/
theorem c2_fix_not_idempotent :
    (checkFile true d0C2).updatedContent = d1C2 ∧
    (checkFile true d0C2).fileIssues.length = 1 ∧
    writeOccurs true (checkFile true d0C2) = true ∧
    (findTargetBlankLinks d1C2).map LinkMatch.rel = [some " rel=".data] ∧
    (checkFile true d1C2).fileIssues.length = 1 ∧
    (checkFile true d1C2).updatedContent ≠ d1C2 ∧
    writeOccurs true (checkFile true d1C2) = true :=
  ⟨by decide, by decide, by decide, by decide, by decide, by decide, by decide⟩

/-- Claim C4: on the spec's example document a report-only run finds exactly
one HIGH violation at line 1 with href `https://example.com` and current rel
`(none)` and does not touch the text or the file; a fix-mode run rewrites
the document to exactly the secured form and the process exit status is 0. -/
theorem c4_end_to_end :
    (checkFile false docC4).fileIssues =
      [{ line := 1, href := "https://example.com".data, currentRel := "(none)".data,
         severity := "HIGH".data, status := none }] ∧
    (checkFile false docC4).updatedContent = docC4 ∧
    writeOccurs false (checkFile false docC4) = false ∧
    (checkFile true docC4).updatedContent = docC4Fixed ∧
    writeOccurs true (checkFile true docC4) = true ∧
    runExitCode true [⟨some docC4, false⟩] = 0 :=
  ⟨by decide, by decide, by decide, by decide, by decide, by decide⟩

/-- Claim C5 counterexample: for a violating tag with `rel="a$&b"`, the
corrected value is `a$&b noopener noreferrer`, but `String.prototype.replace`
expands the `$&` of the replacement template to the whole matched span, so
the first rel attribute occurrence is not replaced with the corrected value:
`fixLink` does not produce the claimed literal `rel="a$&b noopener
noreferrer"` splice. -/
theorem c5_substitution_counterexample :
    lCE.rel = some "a$&b".data ∧
    hasSecureRel lCE.rel = false ∧
    generateSecureRel lCE.rel = "a$&b noopener noreferrer".data ∧
    findRelSpan lCE.tag = some (40, 50) ∧
    fixLink lCE tagCE =
      "<a href=\"https://e.com\" target=\"_blank\" rel=\"arel=\"a$&b\"b noopener noreferrer\">".data ∧
    fixLink lCE tagCE ≠
      tagCE.take 0 ++
        (lCE.tag.take 40 ++ ("rel=\"".data ++ generateSecureRel lCE.rel ++ ['"']) ++
          lCE.tag.drop 50) ++
        tagCE.drop 51 :=
  ⟨rfl, by decide, by decide, by decide, by decide, by decide⟩

/-- Claim C5 as amended: when a violating match has a present but
insufficient rel, the corrected value is the existing value lower-cased and
whitespace-split with `noopener` appended if missing and then `noreferrer`
appended if missing, so every pre-existing token (e.g. `nofollow`) is kept
in lower-cased form; and, provided the replacement template `rel="<corrected
value>"` contains none of the `$` escapes that `String.prototype.replace`
expands (`$$`, `$&`, `` $` ``, `$'`), `fixLink` replaces the first `rel=...`
attribute span of the tag with this value in double-quote style, splicing
the rewritten tag over the match's range. -/
theorem c5_rel_token_preservation (l : LinkMatch) (r content : Str) (p q : Nat)
    (hr : l.rel = some r) (hsec : hasSecureRel l.rel = false)
    (hspan : findRelSpan l.tag = some (p, q))
    (hsub : substEscapeFree ("rel=\"".data ++ generateSecureRel l.rel ++ ['"']) = true) :
    (∃ newVals : List Str,
      generateSecureRel l.rel = joinSpace newVals ∧
      newVals = jsSplitWs (lowerStr r) ++
        (if "noopener".data ∈ jsSplitWs (lowerStr r) then [] else ["noopener".data]) ++
        (if "noreferrer".data ∈ jsSplitWs (lowerStr r) then [] else ["noreferrer".data]) ∧
      "noopener".data ∈ newVals ∧ "noreferrer".data ∈ newVals ∧
      ∀ t ∈ jsSplitWs (lowerStr r), t ∈ newVals) ∧
    fixLink l content =
      content.take l.startIndex ++
        (l.tag.take p ++ ("rel=\"".data ++ generateSecureRel l.rel ++ ['"']) ++
          l.tag.drop q) ++
        content.drop l.endIndex := by
  have hne : ¬("noreferrer".data = "noopener".data) := by decide
  constructor
  · refine ⟨_, ?_, rfl, ?_, ?_, ?_⟩
    · rw [hr]
      simp only [generateSecureRel]
      by_cases h1 : "noopener".data ∈ jsSplitWs (lowerStr r) <;>
        by_cases h2 : "noreferrer".data ∈ jsSplitWs (lowerStr r) <;>
          simp [contains_iff_mem, h1, h2, List.mem_append, hne]
    · by_cases h1 : "noopener".data ∈ jsSplitWs (lowerStr r) <;>
        simp [h1, List.mem_append]
    · by_cases h2 : "noreferrer".data ∈ jsSplitWs (lowerStr r) <;>
        simp [h2, List.mem_append]
    · intro t ht
      simp [List.mem_append, ht]
  · unfold fixLink
    rw [hsec]
    simp only [Bool.false_eq_true, if_false]
    rw [newTagFor_rel_present hr, jsReplaceFirstRel_eq hspan,
      jsSubstitute_eq_self hsub]

/-- Witness for the amended C5 at a `rel="nofollow"` tag: the template is
substitution-free, so the fix keeps `nofollow` and appends
`noopener noreferrer`, replacing the first rel attribute. -/
theorem c5_rel_token_preservation_witness :
    lC5.rel = some "nofollow".data ∧
    hasSecureRel lC5.rel = false ∧
    findRelSpan lC5.tag = some (40, 54) ∧
    substEscapeFree ("rel=\"".data ++ generateSecureRel lC5.rel ++ ['"']) = true ∧
    fixLink lC5 contentC5 =
      "<a href=\"https://e.com\" target=\"_blank\" rel=\"nofollow noopener noreferrer\">x</a>".data :=
  ⟨rfl, by decide, by decide, by decide,
    ((c5_rel_token_preservation lC5 "nofollow".data contentC5 40 54 rfl (by decide)
      (by decide) (by decide)).2).trans (by decide)⟩

/-- Claim C8 counterexample: with fix mode on and a failing write, the
document's result is an error with an empty issue list — the computed issue
(there is exactly one) is dropped from the report entirely, not reported as
unresolved. -/
theorem c8_write_failure_counterexample :
    (checkFileRun true dC8).issues = [] ∧
    (checkFileRun true dC8).err = true ∧
    (checkFile true docC8).fileIssues.length = 1 :=
  ⟨by decide, by decide, by decide⟩

/-- Claim C8 as amended: when the read succeeded, remediations were computed
(`hasChanges`) and the write fails in fix mode, the failure is surfaced
distinctly from a security violation — the document's result carries the
error flag, nothing is written and nothing is marked fixed — but its issues
are dropped from the report (empty issue list) rather than reported as
unresolved; and the failure does not abort processing of the remaining
documents. -/
theorem c8_write_failure_amended (fm : Bool) (d : DocInput) (rest : List DocInput)
    (c : Str) (hfm : fm = true) (hread : d.read = some c)
    (hw : d.writeFails = true) (hch : (checkFile true c).hasChanges = true) :
    checkFileRun fm d = { issues := [], err := true, written := none, fixed := false } ∧
    runResults fm (d :: rest) = checkFileRun fm d :: runResults fm rest := by
  subst hfm
  refine ⟨?_, rfl⟩
  unfold checkFileRun
  rw [hread]
  simp [hch, hw]

/-- Witness for the amended C8 at `dC8` followed by another document. -/
theorem c8_write_failure_amended_witness :
    dC8.read = some docC8 ∧ dC8.writeFails = true ∧
    (checkFile true docC8).hasChanges = true ∧
    (checkFileRun true dC8 = { issues := [], err := true, written := none, fixed := false } ∧
      runResults true (dC8 :: [⟨some docC4, false⟩]) =
        checkFileRun true dC8 :: runResults true [⟨some docC4, false⟩]) :=
  ⟨rfl, rfl, by decide,
    c8_write_failure_amended true dC8 [⟨some docC4, false⟩] docC8 rfl rfl rfl (by decide)⟩

/-- Claim C10: an attribute with an empty quoted value is parsed as absent:
the extraction pattern's captured group is never empty, the example document
with `href=""` is scanned with `href = none` and `rel = none` and produces
no issue in either mode, and a violating tag with `rel=""` is fixed through
the rel-absent insertion path (the new attribute is inserted after
`target="_blank"`, the old empty `rel=""` remaining in place) rather than
through rel replacement. -/
theorem c10_empty_attr_absent :
    (∀ name tag v : Str, extractAttr name tag = some v → v ≠ []) ∧
    ((findTargetBlankLinks docC10a).map LinkMatch.href = [none] ∧
     (findTargetBlankLinks docC10a).map LinkMatch.rel = [none] ∧
     (checkFile false docC10a).fileIssues = [] ∧
     (checkFile true docC10a).fileIssues = []) ∧
    ((findTargetBlankLinks docC10b).map LinkMatch.rel = [none] ∧
     (checkFile true docC10b).updatedContent = docC10bFixed) := by
  refine ⟨?_, ⟨by decide, by decide, by decide, by decide⟩, by decide, by decide⟩
  intro name tag v h
  exact extractAttrGo_ne_nil name tag (tag.length + 1) 0 v h

/-- Witness for C10's universal part at a concrete successful extraction. -/
theorem c10_empty_attr_absent_witness :
    extractAttr "href".data tagC5 = some "https://e.com".data ∧
    "https://e.com".data ≠ [] :=
  ⟨by decide, c10_empty_attr_absent.1 "href".data tagC5 "https://e.com".data (by decide)⟩
